import Mathlib

/-!
Shallow embedding of the statistical comparison engine in
`scripts/analyze_results.py`: descriptive statistics (`calculate_stats`),
Welch's t-test (`welch_t_test`), Cohen's d (`cohens_d`), the per-metric
comparator (`analyze_metric`) and the conclusions partition of
`generate_report`.  Python floats are modelled as real numbers; Python's
`ZeroDivisionError` on float division is modelled by `pydiv` returning
`Except.error`.
-/

namespace ESM

/-- Statistical summary of a sample (`Statistics` dataclass). -/
structure Statistics where
  n : ℕ
  mean : ℝ
  std : ℝ
  min_val : ℝ
  max_val : ℝ
  ci_lower : ℝ
  ci_upper : ℝ

/-- Python's `min(values)` on the non-empty list `x :: xs`. -/
noncomputable def listMin (x : ℝ) (xs : List ℝ) : ℝ := xs.foldl min x

/-- Python's `max(values)` on the non-empty list `x :: xs`. -/
noncomputable def listMax (x : ℝ) (xs : List ℝ) : ℝ := xs.foldl max x

/-- The sample mean `sum(sample) / n` as in the source. -/
noncomputable def sampleMean (l : List ℝ) : ℝ := l.sum / (l.length : ℝ)

/-- Unbiased sample variance `sum((x - mean) ** 2 for x in values) / (n - 1)`. -/
noncomputable def sampleVar (l : List ℝ) : ℝ :=
  (l.map (fun x => (x - sampleMean l) ^ 2)).sum / ((l.length : ℝ) - 1)

/-- Python float division: raises `ZeroDivisionError` when the divisor is zero. -/
noncomputable def pydiv (a b : ℝ) : Except String ℝ :=
  if b = 0 then Except.error "float division by zero" else Except.ok (a / b)

/-- Model of `math.erf`, the Gauss error function. -/
noncomputable def erf (x : ℝ) : ℝ :=
  2 / Real.sqrt Real.pi * ∫ t in (0 : ℝ)..x, Real.exp (-t ^ 2)

/-- Approximate standard normal CDF via the error function (`normal_cdf`). -/
noncomputable def normal_cdf (x : ℝ) : ℝ :=
  0.5 * (1 + erf (x / Real.sqrt 2))

/-- Descriptive statistics, `None` on an empty sample (`calculate_stats`). -/
noncomputable def calculate_stats : List ℝ → Option Statistics
  | [] => none
  | x :: xs =>
    let values := x :: xs
    let n := values.length
    let mean := sampleMean values
    if n < 2 then
      some { n := n, mean := mean, std := 0,
             min_val := listMin x xs, max_val := listMax x xs,
             ci_lower := mean, ci_upper := mean }
    else
      let std := Real.sqrt (sampleVar values)
      let t_value : ℝ := if n > 30 then 1.96 else 2.0
      let margin := t_value * (std / Real.sqrt (n : ℝ))
      some { n := n, mean := mean, std := std,
             min_val := listMin x xs, max_val := listMax x xs,
             ci_lower := mean - margin, ci_upper := mean + margin }

/-- Standard error `se = sqrt(var1/n1 + var2/n2)` of `welch_t_test`. -/
noncomputable def stdError (sample1 sample2 : List ℝ) : ℝ :=
  Real.sqrt (sampleVar sample1 / (sample1.length : ℝ) +
    sampleVar sample2 / (sample2.length : ℝ))

/-- Welch's t-test, returning the pair of t-statistic and p-value. -/
noncomputable def welch_t_test (sample1 sample2 : List ℝ) :
    Except String (ℝ × ℝ) :=
  let n1 := sample1.length
  let n2 := sample2.length
  if n1 < 2 ∨ n2 < 2 then Except.ok (0.0, 1.0)
  else
    let mean1 := sampleMean sample1
    let mean2 := sampleMean sample2
    let var1 := sampleVar sample1
    let var2 := sampleVar sample2
    let se := stdError sample1 sample2
    if se = 0 then Except.ok (0.0, 1.0)
    else
      (pydiv (mean1 - mean2) se).bind fun t_stat =>
        let num := (var1 / (n1 : ℝ) + var2 / (n2 : ℝ)) ^ 2
        let denom := (var1 / (n1 : ℝ)) ^ 2 / ((n1 : ℝ) - 1) +
          (var2 / (n2 : ℝ)) ^ 2 / ((n2 : ℝ) - 1)
        let df := if denom > 0 then num / denom else (1 : ℝ)
        let z := |t_stat|
        let p_value := 2 * (1 - normal_cdf z)
        Except.ok (t_stat, p_value)

/-- Pooled standard deviation `sqrt(((n1-1)*var1 + (n2-1)*var2)/(n1+n2-2))`. -/
noncomputable def pooled_std (sample1 sample2 : List ℝ) : ℝ :=
  Real.sqrt ((((sample1.length : ℝ) - 1) * sampleVar sample1 +
    ((sample2.length : ℝ) - 1) * sampleVar sample2) /
    ((sample1.length : ℝ) + (sample2.length : ℝ) - 2))

/-- Cohen's d effect size (`cohens_d`). -/
noncomputable def cohens_d (sample1 sample2 : List ℝ) : ℝ :=
  let n1 := sample1.length
  let n2 := sample2.length
  if n1 < 2 ∨ n2 < 2 then 0.0
  else
    let mean1 := sampleMean sample1
    let mean2 := sampleMean sample2
    let ps := pooled_std sample1 sample2
    if ps = 0 then 0.0 else (mean1 - mean2) / ps

/-- Categorical label for a Cohen's d value (`effect_size_interpretation`). -/
noncomputable def effect_size_interpretation (d : ℝ) : String :=
  let a := |d|
  if a < 0.2 then "negligible"
  else if a < 0.5 then "small"
  else if a < 0.8 then "medium"
  else "large"

/-- The fully populated comparison record built by `analyze_metric`. -/
structure FullResult where
  baseline : Statistics
  esm : Statistics
  improvement_pct : ℝ
  improved : Bool
  t_statistic : ℝ
  p_value : ℝ
  cohens_d : ℝ
  effect_size : String
  significant : Bool

/-- A comparison result: either the error record carrying the metric name
and the Insufficient data marker, or the full record. -/
inductive MetricResult where
  | insufficient (metric : String)
  | full (metric : String) (data : FullResult)

/-- Compare baseline vs ESM values for one metric (`analyze_metric`). -/
noncomputable def analyze_metric (baseline_values esm_values : List ℝ)
    (metric_name : String) (lower_is_better : Bool) :
    Except String MetricResult :=
  match calculate_stats baseline_values, calculate_stats esm_values with
  | none, _ => Except.ok (MetricResult.insufficient metric_name)
  | some _, none => Except.ok (MetricResult.insufficient metric_name)
  | some baseline_stats, some esm_stats =>
    (if lower_is_better then
        pydiv (baseline_stats.mean - esm_stats.mean) baseline_stats.mean
      else
        pydiv (esm_stats.mean - baseline_stats.mean) baseline_stats.mean).bind
      fun frac =>
        let improvement := frac * 100
        let improved : Bool :=
          if lower_is_better then decide (esm_stats.mean < baseline_stats.mean)
          else decide (esm_stats.mean > baseline_stats.mean)
        (welch_t_test baseline_values esm_values).bind fun tp =>
          let d := cohens_d baseline_values esm_values
          Except.ok (MetricResult.full metric_name
            { baseline := baseline_stats, esm := esm_stats,
              improvement_pct := improvement, improved := improved,
              t_statistic := tp.1, p_value := tp.2,
              cohens_d := d, effect_size := effect_size_interpretation d,
              significant := decide (tp.2 < 0.05) })

/-- The "validated claims" list of the Conclusions section of
`generate_report`: non-error results with `significant and improved`. -/
def validated_metrics : List MetricResult → List String
  | [] => []
  | MetricResult.insufficient _ :: rs => validated_metrics rs
  | MetricResult.full m d :: rs =>
    if d.significant && d.improved then m :: validated_metrics rs
    else validated_metrics rs

/-- The "unvalidated claims" list of the Conclusions section of
`generate_report`: non-error results hitting the `elif not improved` arm. -/
def refuted_metrics : List MetricResult → List String
  | [] => []
  | MetricResult.insufficient _ :: rs => refuted_metrics rs
  | MetricResult.full m d :: rs =>
    if d.significant && d.improved then refuted_metrics rs
    else if !d.improved then m :: refuted_metrics rs
    else refuted_metrics rs

/-! Projection helpers used only to state properties of `analyze_metric`
results: whether a full record was returned, and its improvement fields. -/

/-- True when the comparator returned a fully populated record. -/
def returnsFull : Except String MetricResult → Bool
  | Except.ok (MetricResult.full _ _) => true
  | _ => false

/-- The `improvement_pct` field of a full record, defaulting to 0. -/
noncomputable def improvementPct : Except String MetricResult → ℝ
  | Except.ok (MetricResult.full _ d) => d.improvement_pct
  | _ => 0

/-- The `improved` field of a full record, defaulting to `false`. -/
def improvedFlag : Except String MetricResult → Bool
  | Except.ok (MetricResult.full _ d) => d.improved
  | _ => false

/-! Helper lemmas. -/

/-- On an empty sample, `calculate_stats` returns `none`. -/
theorem calculate_stats_nil : calculate_stats [] = none := rfl

/-- On a non-empty sample, `calculate_stats` always succeeds, and its `mean`
field is the sample mean. -/
theorem calculate_stats_cons (x : ℝ) (xs : List ℝ) :
    ∃ st, calculate_stats (x :: xs) = some st ∧ st.mean = sampleMean (x :: xs) := by
  simp only [calculate_stats]
  split
  · exact ⟨_, rfl, rfl⟩
  · exact ⟨_, rfl, rfl⟩

/-- Totality: `welch_t_test` always returns a pair, never a division error. -/
theorem welch_total (s1 s2 : List ℝ) :
    ∃ t p, welch_t_test s1 s2 = Except.ok (t, p) := by
  simp only [welch_t_test]
  split
  · exact ⟨_, _, rfl⟩
  · split
    · exact ⟨_, _, rfl⟩
    · rename_i hse
      rw [pydiv, if_neg hse]
      exact ⟨_, _, rfl⟩

/-- On non-empty samples with nonzero baseline mean, `analyze_metric` returns
a full record whose improvement fields follow the polarity rule. -/
theorem analyze_metric_ok (s1 s2 : List ℝ) (name : String) (lib : Bool)
    (h1 : s1 ≠ []) (h2 : s2 ≠ []) (h3 : sampleMean s1 ≠ 0) :
    ∃ d : FullResult,
      analyze_metric s1 s2 name lib = Except.ok (MetricResult.full name d) ∧
      d.improvement_pct =
        (if lib then (sampleMean s1 - sampleMean s2) / sampleMean s1 * 100
         else (sampleMean s2 - sampleMean s1) / sampleMean s1 * 100) ∧
      d.improved =
        (if lib then decide (sampleMean s2 < sampleMean s1)
         else decide (sampleMean s1 < sampleMean s2)) := by
  obtain ⟨x1, xs1, rfl⟩ := List.exists_cons_of_ne_nil h1
  obtain ⟨x2, xs2, rfl⟩ := List.exists_cons_of_ne_nil h2
  obtain ⟨st1, hc1, hm1⟩ := calculate_stats_cons x1 xs1
  obtain ⟨st2, hc2, hm2⟩ := calculate_stats_cons x2 xs2
  obtain ⟨t, p, hw⟩ := welch_total (x1 :: xs1) (x2 :: xs2)
  have hb : st1.mean ≠ 0 := by rw [hm1]; exact h3
  cases lib with
  | true =>
    refine ⟨⟨st1, st2, (st1.mean - st2.mean) / st1.mean * 100,
      decide (st2.mean < st1.mean), t, p,
      cohens_d (x1 :: xs1) (x2 :: xs2),
      effect_size_interpretation (cohens_d (x1 :: xs1) (x2 :: xs2)),
      decide (p < 0.05)⟩, ?_, ?_, ?_⟩
    · simp [analyze_metric, hc1, hc2, pydiv, hb, hw, Except.bind]
    · simp [hm1, hm2]
    · simp [hm1, hm2]
  | false =>
    refine ⟨⟨st1, st2, (st2.mean - st1.mean) / st1.mean * 100,
      decide (st1.mean < st2.mean), t, p,
      cohens_d (x1 :: xs1) (x2 :: xs2),
      effect_size_interpretation (cohens_d (x1 :: xs1) (x2 :: xs2)),
      decide (p < 0.05)⟩, ?_, ?_, ?_⟩
    · simp [analyze_metric, hc1, hc2, pydiv, hb, hw, Except.bind]
    · simp [hm1, hm2]
    · simp [hm1, hm2]

/-! Claims. -/

/-- Claim C1: on non-empty samples with nonzero baseline mean the comparator's
improvement percentage and improved flag follow the polarity rule: with
`lower_is_better` true, `improvement_pct = (baseline.mean - candidate.mean)
/ baseline.mean * 100` and `improved` iff the candidate mean is below the
baseline mean; with it false, the mirrored formulas. -/
theorem improvement_polarity (s1 s2 : List ℝ) (name : String) (lib : Bool)
    (h1 : s1 ≠ []) (h2 : s2 ≠ []) (h3 : sampleMean s1 ≠ 0) :
    returnsFull (analyze_metric s1 s2 name lib) = true ∧
    improvementPct (analyze_metric s1 s2 name lib) =
      (if lib then (sampleMean s1 - sampleMean s2) / sampleMean s1 * 100
       else (sampleMean s2 - sampleMean s1) / sampleMean s1 * 100) ∧
    (improvedFlag (analyze_metric s1 s2 name lib) = true ↔
      (if lib then sampleMean s2 < sampleMean s1
       else sampleMean s1 < sampleMean s2)) := by
  obtain ⟨d, hd, hpct, himp⟩ := analyze_metric_ok s1 s2 name lib h1 h2 h3
  rw [hd]
  refine ⟨rfl, ?_, ?_⟩
  · simpa [improvementPct] using hpct
  · cases lib <;> simp_all [improvedFlag]

/-- Claim C1 witness: baseline `[100]`, candidate `[80]`, `lower_is_better` true
give `improvement_pct = 20` and `improved = true`. -/
theorem improvement_polarity_witness :
    improvementPct (analyze_metric [(100 : ℝ)] [(80 : ℝ)] "m" true) = 20 ∧
    improvedFlag (analyze_metric [(100 : ℝ)] [(80 : ℝ)] "m" true) = true := by
  obtain ⟨-, hpct, himp⟩ :=
    improvement_polarity [(100 : ℝ)] [(80 : ℝ)] "m" true (by simp) (by simp)
      (by norm_num [sampleMean])
  constructor
  · rw [hpct]
    norm_num [sampleMean]
  · exact himp.mpr (by norm_num [sampleMean])

/-- Claim C9: the effect-size label is determined by the absolute value with
inclusive lower edges: `|d| < 0.2` is "negligible", `0.2 ≤ |d| < 0.5` is
"small", `0.5 ≤ |d| < 0.8` is "medium", `|d| ≥ 0.8` is "large"; at exactly
0.2, 0.5, 0.8 the labels are "small", "medium", "large". -/
theorem effect_size_bands (d : ℝ) :
    (effect_size_interpretation d = "negligible" ↔ |d| < 0.2) ∧
    (effect_size_interpretation d = "small" ↔ 0.2 ≤ |d| ∧ |d| < 0.5) ∧
    (effect_size_interpretation d = "medium" ↔ 0.5 ≤ |d| ∧ |d| < 0.8) ∧
    (effect_size_interpretation d = "large" ↔ 0.8 ≤ |d|) ∧
    effect_size_interpretation 0.2 = "small" ∧
    effect_size_interpretation 0.5 = "medium" ∧
    effect_size_interpretation 0.8 = "large" := by
  have hb : ∀ x : ℝ, 0 ≤ x → |x| = x := fun x hx => abs_of_nonneg hx
  refine ⟨?_, ?_, ?_, ?_, ?_, ?_, ?_⟩
  · simp only [effect_size_interpretation]
    split_ifs with h1 h2 h3
    · exact iff_of_true rfl h1
    · exact iff_of_false (by decide) h1
    · exact iff_of_false (by decide) h1
    · exact iff_of_false (by decide) h1
  · simp only [effect_size_interpretation]
    split_ifs with h1 h2 h3
    · refine iff_of_false (by decide) ?_
      rintro ⟨ha, -⟩
      linarith
    · exact iff_of_true rfl ⟨not_lt.mp h1, h2⟩
    · refine iff_of_false (by decide) ?_
      rintro ⟨-, hb2⟩
      exact h2 hb2
    · refine iff_of_false (by decide) ?_
      rintro ⟨-, hb2⟩
      exact h2 hb2
  · simp only [effect_size_interpretation]
    split_ifs with h1 h2 h3
    · refine iff_of_false (by decide) ?_
      rintro ⟨ha, -⟩
      linarith
    · refine iff_of_false (by decide) ?_
      rintro ⟨ha, -⟩
      linarith
    · exact iff_of_true rfl ⟨not_lt.mp h2, h3⟩
    · refine iff_of_false (by decide) ?_
      rintro ⟨-, hb2⟩
      exact h3 hb2
  · simp only [effect_size_interpretation]
    split_ifs with h1 h2 h3
    · refine iff_of_false (by decide) ?_
      intro ha
      linarith
    · refine iff_of_false (by decide) ?_
      intro ha
      linarith
    · refine iff_of_false (by decide) ?_
      intro ha
      linarith
    · exact iff_of_true rfl (not_lt.mp h3)
  · simp only [effect_size_interpretation, hb (0.2 : ℝ) (by norm_num)]
    norm_num
  · simp only [effect_size_interpretation, hb (0.5 : ℝ) (by norm_num)]
    norm_num
  · simp only [effect_size_interpretation, hb (0.8 : ℝ) (by norm_num)]
    norm_num

/-- Claim C6: if either input sample is empty, the comparator returns exactly the
error record carrying only the metric name, with no further computation. -/
theorem analyze_metric_empty (s1 s2 : List ℝ) (name : String) (lib : Bool)
    (h : s1 = [] ∨ s2 = []) :
    analyze_metric s1 s2 name lib =
      Except.ok (MetricResult.insufficient name) := by
  rcases h with h | h
  · subst h
    cases h2 : calculate_stats s2 <;>
      simp [analyze_metric, calculate_stats_nil, h2]
  · subst h
    cases h1 : calculate_stats s1 <;>
      simp [analyze_metric, calculate_stats_nil, h1]

/-- Claim C6 witness: with an empty baseline sample and candidate `[1]` the
comparator returns the bare "Insufficient data" record. -/
theorem analyze_metric_empty_witness :
    analyze_metric [] [(1 : ℝ)] "m" true =
      Except.ok (MetricResult.insufficient "m") :=
  analyze_metric_empty [] [(1 : ℝ)] "m" true (Or.inl rfl)

/-- Claim C3: with baseline sample `[0]` (mean exactly 0) and candidate `[1]`,
both non-empty, the improvement computation divides by zero and the
comparator yields a `ZeroDivisionError` instead of a structured result. -/
theorem analyze_metric_zero_baseline :
    analyze_metric [(0 : ℝ)] [(1 : ℝ)] "m" true =
      Except.error "float division by zero" := by
  have h0 : calculate_stats [(0 : ℝ)] =
      some { n := 1, mean := 0, std := 0, min_val := 0, max_val := 0,
             ci_lower := 0, ci_upper := 0 } := by
    simp [calculate_stats, sampleMean, listMin, listMax]
  have h1 : calculate_stats [(1 : ℝ)] =
      some { n := 1, mean := 1, std := 0, min_val := 1, max_val := 1,
             ci_lower := 1, ci_upper := 1 } := by
    simp [calculate_stats, sampleMean, listMin, listMax]
  simp [analyze_metric, h0, h1, pydiv, Except.bind]

/-- Claim C2: the Conclusions section lists a metric among "validated" exactly when
some non-error record for it is both significant and improved, and among
"unvalidated" exactly when some non-error record for it is not improved;
error records and improved-but-not-significant records feed neither list. -/
theorem conclusions_partition (results : List MetricResult) (m : String) :
    (m ∈ validated_metrics results ↔
      ∃ d, MetricResult.full m d ∈ results ∧
        d.significant = true ∧ d.improved = true) ∧
    (m ∈ refuted_metrics results ↔
      ∃ d, MetricResult.full m d ∈ results ∧ d.improved = false) := by
  induction results with
  | nil => simp [validated_metrics, refuted_metrics]
  | cons r rs ih =>
    obtain ⟨ih1, ih2⟩ := ih
    cases r with
    | insufficient s =>
      refine ⟨?_, ?_⟩
      · rw [validated_metrics, ih1]
        simp
      · rw [refuted_metrics, ih2]
        simp
    | full name d =>
      cases hs : d.significant <;> cases hi : d.improved <;>
        refine ⟨?_, ?_⟩ <;>
        simp [validated_metrics, refuted_metrics, hs, hi, List.mem_cons,
          MetricResult.full.injEq, ih1, ih2] <;>
        aesop

/-- A ratio scaled by 100 is positive iff its numerator is, for a positive
denominator. -/
theorem pos_frac (c a : ℝ) (ha : 0 < a) : 0 < c / a * 100 ↔ 0 < c := by
  rw [div_mul_eq_mul_div, lt_div_iff ha]
  constructor <;> intro h <;> nlinarith

/-- Claim C10: with a strictly positive baseline mean, the improved flag is true
iff the improvement percentage is positive, for either polarity; with a
negative baseline mean the two can disagree — at baseline `[-100]` and
candidate `[-80]` the flag is false yet the percentage is positive. -/
theorem improved_iff_positive_pct :
    (∀ (s1 s2 : List ℝ) (name : String) (lib : Bool),
      s1 ≠ [] → s2 ≠ [] → 0 < sampleMean s1 →
      (improvedFlag (analyze_metric s1 s2 name lib) = true ↔
        0 < improvementPct (analyze_metric s1 s2 name lib))) ∧
    (returnsFull (analyze_metric [(-100 : ℝ)] [(-80 : ℝ)] "m" true) = true ∧
     sampleMean [(-100 : ℝ)] < 0 ∧
     improvedFlag (analyze_metric [(-100 : ℝ)] [(-80 : ℝ)] "m" true) = false ∧
     0 < improvementPct (analyze_metric [(-100 : ℝ)] [(-80 : ℝ)] "m" true)) := by
  constructor
  · intro s1 s2 name lib h1 h2 h3
    obtain ⟨d, hd, hpct, himp⟩ :=
      analyze_metric_ok s1 s2 name lib h1 h2 (ne_of_gt h3)
    rw [hd]
    show d.improved = true ↔ 0 < d.improvement_pct
    rw [himp, hpct]
    cases lib with
    | true =>
      simp only [if_pos rfl, if_true, decide_eq_true_eq]
      rw [pos_frac _ _ h3, sub_pos]
    | false =>
      simp only [Bool.false_eq_true, if_false, decide_eq_true_eq]
      rw [pos_frac _ _ h3, sub_pos]
  · have h3 : sampleMean [(-100 : ℝ)] ≠ 0 := by norm_num [sampleMean]
    obtain ⟨d, hd, hpct, himp⟩ :=
      analyze_metric_ok [(-100 : ℝ)] [(-80 : ℝ)] "m" true (by simp) (by simp) h3
    rw [hd]
    refine ⟨rfl, by norm_num [sampleMean], ?_, ?_⟩
    · show d.improved = false
      rw [himp]
      norm_num [sampleMean]
    · show 0 < d.improvement_pct
      rw [hpct]
      norm_num [sampleMean]

/-- Claim C10 witness: with baseline `[2]` (positive mean) and candidate `[1]`,
the improved flag is equivalent to a positive improvement percentage. -/
theorem improved_iff_positive_pct_witness :
    improvedFlag (analyze_metric [(2 : ℝ)] [(1 : ℝ)] "m" true) = true ↔
      0 < improvementPct (analyze_metric [(2 : ℝ)] [(1 : ℝ)] "m" true) :=
  improved_iff_positive_pct.1 [(2 : ℝ)] [(1 : ℝ)] "m" true (by simp) (by simp)
    (by norm_num [sampleMean])

/-- The standard error is symmetric in the two samples. -/
theorem stdError_comm (s1 s2 : List ℝ) : stdError s2 s1 = stdError s1 s2 := by
  rw [stdError, stdError, add_comm]

/-- The pooled standard deviation is symmetric in the two samples. -/
theorem pooled_std_comm (s1 s2 : List ℝ) :
    pooled_std s2 s1 = pooled_std s1 s2 := by
  rw [pooled_std, pooled_std]
  congr 1
  ring

/-- Claim C4: swapping the samples negates the t-statistic, keeps the p-value, and
negates Cohen's d, across all branches including the degenerate ones. -/
theorem swap_antisymmetry (s1 s2 : List ℝ) :
    (∃ t p, welch_t_test s1 s2 = Except.ok (t, p) ∧
      welch_t_test s2 s1 = Except.ok (-t, p)) ∧
    cohens_d s2 s1 = -cohens_d s1 s2 := by
  constructor
  · by_cases hn : s1.length < 2 ∨ s2.length < 2
    · have hn' : s2.length < 2 ∨ s1.length < 2 := hn.symm
      refine ⟨0.0, 1.0, ?_, ?_⟩
      · simp only [welch_t_test]
        rw [if_pos hn]
      · simp only [welch_t_test]
        rw [if_pos hn']
        norm_num [Except.ok.injEq, Prod.mk.injEq]
    · have hn' : ¬(s2.length < 2 ∨ s1.length < 2) := fun h => hn h.symm
      by_cases hse : stdError s1 s2 = 0
      · have hse' : stdError s2 s1 = 0 := by
          rw [stdError_comm]
          exact hse
        refine ⟨0.0, 1.0, ?_, ?_⟩
        · simp only [welch_t_test]
          rw [if_neg hn, if_pos hse]
        · simp only [welch_t_test]
          rw [if_neg hn', if_pos hse']
          norm_num [Except.ok.injEq, Prod.mk.injEq]
      · have hse' : stdError s2 s1 ≠ 0 := by
          rw [stdError_comm]
          exact hse
        refine ⟨(sampleMean s1 - sampleMean s2) / stdError s1 s2,
          2 * (1 - normal_cdf |(sampleMean s1 - sampleMean s2) / stdError s1 s2|),
          ?_, ?_⟩
        · simp only [welch_t_test]
          rw [if_neg hn, if_neg hse, pydiv, if_neg hse]
          simp [Except.bind]
        · simp only [welch_t_test]
          rw [if_neg hn', if_neg hse', pydiv, if_neg hse']
          simp only [Except.bind]
          rw [stdError_comm]
          have hneg : (sampleMean s2 - sampleMean s1) / stdError s1 s2 =
              -((sampleMean s1 - sampleMean s2) / stdError s1 s2) := by
            rw [← neg_div, neg_sub]
          rw [hneg, abs_neg]
  · simp only [cohens_d]
    by_cases hn : s1.length < 2 ∨ s2.length < 2
    · rw [if_pos hn.symm, if_pos hn]
      norm_num
    · have hn' : ¬(s2.length < 2 ∨ s1.length < 2) := fun h => hn h.symm
      rw [if_neg hn', if_neg hn]
      by_cases hp : pooled_std s1 s2 = 0
      · have hp' : pooled_std s2 s1 = 0 := by
          rw [pooled_std_comm]
          exact hp
        rw [if_pos hp', if_pos hp]
        norm_num
      · have hp' : pooled_std s2 s1 ≠ 0 := by
          rw [pooled_std_comm]
          exact hp
        rw [if_neg hp', if_neg hp, pooled_std_comm, ← neg_div, neg_sub]

/-- The error function vanishes at zero. -/
theorem erf_zero : erf 0 = 0 := by
  rw [erf, intervalIntegral.integral_same, mul_zero]

/-- Value of the CDF at zero: `normal_cdf 0 = 0.5`. -/
theorem normal_cdf_zero : normal_cdf 0 = 0.5 := by
  rw [normal_cdf, zero_div, erf_zero]
  norm_num

/-- Claim C5 counterexample: on samples `[0, 2]` and `[1, 1]` — both of length 2
and with nonzero standard error — the tester still returns the neutral
`(0.0, 1.0)`, so the neutral result is not returned exactly (only) in the
degenerate cases. -/
theorem welch_neutral_nondegenerate :
    welch_t_test [(0 : ℝ), 2] [(1 : ℝ), 1] = Except.ok (0.0, 1.0) ∧
    ¬((([(0 : ℝ), 2] : List ℝ)).length < 2 ∨
      (([(1 : ℝ), 1] : List ℝ)).length < 2) ∧
    stdError [(0 : ℝ), 2] [(1 : ℝ), 1] ≠ 0 := by
  have hm1 : sampleMean [(0 : ℝ), 2] = 1 := by norm_num [sampleMean]
  have hm2 : sampleMean [(1 : ℝ), 1] = 1 := by norm_num [sampleMean]
  have hv1 : sampleVar [(0 : ℝ), 2] = 2 := by norm_num [sampleVar, hm1]
  have hv2 : sampleVar [(1 : ℝ), 1] = 0 := by norm_num [sampleVar, hm2]
  have hse : stdError [(0 : ℝ), 2] [(1 : ℝ), 1] = 1 := by
    rw [stdError, hv1, hv2]
    norm_num [Real.sqrt_one]
  have hn : ¬((([(0 : ℝ), 2] : List ℝ)).length < 2 ∨
      (([(1 : ℝ), 1] : List ℝ)).length < 2) := by norm_num
  have hse' : stdError [(0 : ℝ), 2] [(1 : ℝ), 1] ≠ 0 := by
    rw [hse]
    norm_num
  refine ⟨?_, hn, hse'⟩
  simp only [welch_t_test]
  rw [if_neg hn, if_neg hse', pydiv, if_neg hse']
  simp only [Except.bind]
  rw [hm1, hm2, hse]
  norm_num [normal_cdf_zero, Except.ok.injEq, Prod.mk.injEq]

/-- Claim C5 (amended): whenever either sample has fewer than 2 observations, or
the standard error is zero, the tester returns the neutral `(0.0, 1.0)`,
and it never fails by dividing by zero (a pair is always returned).  The
converse is false: the neutral result also arises non-degenerately when the
two sample means coincide. -/
theorem welch_degenerate_neutral (s1 s2 : List ℝ) :
    (s1.length < 2 ∨ s2.length < 2 →
      welch_t_test s1 s2 = Except.ok (0.0, 1.0)) ∧
    (stdError s1 s2 = 0 → welch_t_test s1 s2 = Except.ok (0.0, 1.0)) ∧
    ∃ t p, welch_t_test s1 s2 = Except.ok (t, p) := by
  refine ⟨?_, ?_, welch_total s1 s2⟩
  · intro hn
    simp only [welch_t_test]
    rw [if_pos hn]
  · intro hse
    by_cases hn : s1.length < 2 ∨ s2.length < 2
    · simp only [welch_t_test]
      rw [if_pos hn]
    · simp only [welch_t_test]
      rw [if_neg hn, if_pos hse]

/-- Claim C5 witness: a single-observation first sample yields the neutral
result. -/
theorem welch_degenerate_neutral_witness :
    welch_t_test [(1 : ℝ)] [(2 : ℝ), 3] = Except.ok (0.0, 1.0) :=
  (welch_degenerate_neutral [(1 : ℝ)] [(2 : ℝ), 3]).1 (Or.inl (by norm_num))

/-- Folding `min` over a list never exceeds the initial accumulator. -/
theorem foldl_min_le_init (l : List ℝ) (a : ℝ) : l.foldl min a ≤ a := by
  induction l generalizing a with
  | nil => simp
  | cons b bs ih =>
    rw [List.foldl_cons]
    exact le_trans (ih (min a b)) (min_le_left a b)

/-- Folding `min` over a list bounds every member from below. -/
theorem foldl_min_le_mem (l : List ℝ) (y : ℝ) (hy : y ∈ l) :
    ∀ a, l.foldl min a ≤ y := by
  induction l with
  | nil => cases hy
  | cons b bs ih =>
    intro a
    rw [List.foldl_cons]
    rcases List.mem_cons.mp hy with rfl | hy'
    · exact le_trans (foldl_min_le_init bs (min a y)) (min_le_right a y)
    · exact ih hy' (min a b)

/-- Folding `max` over a list is at least the initial accumulator. -/
theorem init_le_foldl_max (l : List ℝ) (a : ℝ) : a ≤ l.foldl max a := by
  induction l generalizing a with
  | nil => simp
  | cons b bs ih =>
    rw [List.foldl_cons]
    exact le_trans (le_max_left a b) (ih (max a b))

/-- Folding `max` over a list bounds every member from above. -/
theorem mem_le_foldl_max (l : List ℝ) (y : ℝ) (hy : y ∈ l) :
    ∀ a, y ≤ l.foldl max a := by
  induction l with
  | nil => cases hy
  | cons b bs ih =>
    intro a
    rw [List.foldl_cons]
    rcases List.mem_cons.mp hy with rfl | hy'
    · exact le_trans (le_max_right a y) (init_le_foldl_max bs (max a y))
    · exact ih hy' (max a b)

/-- A lower bound on every member bounds the sum by `m * length`. -/
theorem mul_length_le_sum (l : List ℝ) (m : ℝ) (h : ∀ y ∈ l, m ≤ y) :
    m * (l.length : ℝ) ≤ l.sum := by
  induction l with
  | nil => simp
  | cons a as ih =>
    have ha := h a (List.mem_cons_self a as)
    have ih' := ih fun y hy => h y (List.mem_cons_of_mem a hy)
    simp only [List.sum_cons, List.length_cons]
    push_cast
    have hexp : m * ((as.length : ℝ) + 1) = m * (as.length : ℝ) + m := by ring
    rw [hexp]
    linarith

/-- An upper bound on every member bounds the sum by `M * length`. -/
theorem sum_le_mul_length (l : List ℝ) (M : ℝ) (h : ∀ y ∈ l, y ≤ M) :
    l.sum ≤ M * (l.length : ℝ) := by
  induction l with
  | nil => simp
  | cons a as ih =>
    have ha := h a (List.mem_cons_self a as)
    have ih' := ih fun y hy => h y (List.mem_cons_of_mem a hy)
    simp only [List.sum_cons, List.length_cons]
    push_cast
    have hexp : M * ((as.length : ℝ) + 1) = M * (as.length : ℝ) + M := by ring
    rw [hexp]
    linarith

/-- The minimum of a non-empty sample is at most its mean. -/
theorem listMin_le_sampleMean (x : ℝ) (xs : List ℝ) :
    listMin x xs ≤ sampleMean (x :: xs) := by
  have hmem : ∀ y ∈ x :: xs, listMin x xs ≤ y := by
    intro y hy
    rcases List.mem_cons.mp hy with rfl | hy'
    · exact foldl_min_le_init xs y
    · exact foldl_min_le_mem xs y hy' x
  have hsum := mul_length_le_sum (x :: xs) (listMin x xs) hmem
  have hn : (0 : ℝ) < (((x :: xs).length : ℕ) : ℝ) := by
    exact_mod_cast Nat.succ_pos xs.length
  rw [sampleMean, le_div_iff hn]
  exact hsum

/-- The mean of a non-empty sample is at most its maximum. -/
theorem sampleMean_le_listMax (x : ℝ) (xs : List ℝ) :
    sampleMean (x :: xs) ≤ listMax x xs := by
  have hmem : ∀ y ∈ x :: xs, y ≤ listMax x xs := by
    intro y hy
    rcases List.mem_cons.mp hy with rfl | hy'
    · exact init_le_foldl_max xs y
    · exact mem_le_foldl_max xs y hy' x
  have hsum := sum_le_mul_length (x :: xs) (listMax x xs) hmem
  have hn : (0 : ℝ) < (((x :: xs).length : ℕ) : ℝ) := by
    exact_mod_cast Nat.succ_pos xs.length
  rw [sampleMean, div_le_iff hn]
  calc (x :: xs).sum ≤ listMax x xs * ((x :: xs).length : ℝ) := hsum
    _ = listMax x xs * ((x :: xs).length : ℝ) := rfl

/-- Claim C7: every computed statistics record satisfies
`ci_lower ≤ mean ≤ ci_upper` and `min ≤ mean ≤ max`; on a sample with fewer
than 2 observations, `std = 0` and the confidence interval collapses to the
mean. -/
theorem stats_invariants (values : List ℝ) (s : Statistics)
    (h : calculate_stats values = some s) :
    (s.ci_lower ≤ s.mean ∧ s.mean ≤ s.ci_upper ∧
     s.min_val ≤ s.mean ∧ s.mean ≤ s.max_val) ∧
    (values.length < 2 →
      s.std = 0 ∧ s.ci_lower = s.mean ∧ s.ci_upper = s.mean) := by
  cases values with
  | nil => simp [calculate_stats_nil] at h
  | cons x xs =>
    simp only [calculate_stats] at h
    by_cases hn : (x :: xs).length < 2
    · rw [if_pos hn] at h
      injection h with h'
      subst h'
      exact ⟨⟨le_refl _, le_refl _, listMin_le_sampleMean x xs,
        sampleMean_le_listMax x xs⟩, fun _ => ⟨rfl, rfl, rfl⟩⟩
    · rw [if_neg hn] at h
      injection h with h'
      subst h'
      have hmargin : 0 ≤ (if (x :: xs).length > 30 then (1.96 : ℝ) else 2.0) *
          (Real.sqrt (sampleVar (x :: xs)) / Real.sqrt (((x :: xs).length : ℕ) : ℝ)) := by
        have htv : (0 : ℝ) ≤ (if (x :: xs).length > 30 then (1.96 : ℝ) else 2.0) := by
          split <;> norm_num
        exact mul_nonneg htv (div_nonneg (Real.sqrt_nonneg _) (Real.sqrt_nonneg _))
      exact ⟨⟨sub_le_self _ hmargin, le_add_of_nonneg_right hmargin,
        listMin_le_sampleMean x xs, sampleMean_le_listMax x xs⟩,
        fun hlt => absurd hlt hn⟩

/-- Claim C7 witness: on the single-element sample `[3]` the record is
`(n=1, mean=3, std=0, min=max=3, ci=[3,3])` and all invariants hold. -/
theorem stats_invariants_witness :
    calculate_stats [(3 : ℝ)] = some ⟨1, 3, 0, 3, 3, 3, 3⟩ ∧
    ((3 : ℝ) ≤ 3 ∧ (3 : ℝ) ≤ 3 ∧ (3 : ℝ) ≤ 3 ∧ (3 : ℝ) ≤ 3) ∧
    ((0 : ℝ) = 0 ∧ (3 : ℝ) = 3 ∧ (3 : ℝ) = 3) := by
  have h : calculate_stats [(3 : ℝ)] = some ⟨1, 3, 0, 3, 3, 3, 3⟩ := by
    simp [calculate_stats, sampleMean, listMin, listMax]
  exact ⟨h, (stats_invariants [(3 : ℝ)] ⟨1, 3, 0, 3, 3, 3, 3⟩ h).1,
    (stats_invariants [(3 : ℝ)] ⟨1, 3, 0, 3, 3, 3, 3⟩ h).2 (by norm_num)⟩

/-- Claim C8: with both samples of size at least 2 and nonzero standard error,
the returned p-value is exactly `2 * (1 - Φ(|t|))` with
`Φ(x) = 0.5 * (1 + erf (x / √2))`; the Welch–Satterthwaite degrees of
freedom do not enter the result. -/
theorem welch_p_formula (s1 s2 : List ℝ)
    (h1 : 2 ≤ s1.length) (h2 : 2 ≤ s2.length)
    (hse : stdError s1 s2 ≠ 0) :
    welch_t_test s1 s2 = Except.ok
      ((sampleMean s1 - sampleMean s2) / stdError s1 s2,
       2 * (1 - 0.5 * (1 + erf (|(sampleMean s1 - sampleMean s2) /
         stdError s1 s2| / Real.sqrt 2)))) := by
  have hn : ¬(s1.length < 2 ∨ s2.length < 2) := by
    push_neg
    exact ⟨h1, h2⟩
  simp only [welch_t_test]
  rw [if_neg hn, if_neg hse, pydiv, if_neg hse]
  simp only [Except.bind, normal_cdf]

/-- Claim C8 witness: on the pair of samples `[0, 1]` and `[0, 1]` (both of size
2, nonzero standard error) the p-value follows the normal-CDF formula. -/
theorem welch_p_formula_witness :
    welch_t_test [(0 : ℝ), 1] [(0 : ℝ), 1] = Except.ok
      ((sampleMean [(0 : ℝ), 1] - sampleMean [(0 : ℝ), 1]) /
         stdError [(0 : ℝ), 1] [(0 : ℝ), 1],
       2 * (1 - 0.5 * (1 + erf (|(sampleMean [(0 : ℝ), 1] -
         sampleMean [(0 : ℝ), 1]) / stdError [(0 : ℝ), 1] [(0 : ℝ), 1]| /
         Real.sqrt 2)))) := by
  have hv : sampleVar [(0 : ℝ), 1] = 1 / 2 := by
    norm_num [sampleVar, sampleMean]
  have hse : stdError [(0 : ℝ), 1] [(0 : ℝ), 1] ≠ 0 := by
    rw [stdError, hv, Real.sqrt_ne_zero']
    norm_num
  exact welch_p_formula [(0 : ℝ), 1] [(0 : ℝ), 1] (by norm_num) (by norm_num) hse

end ESM
